import Mathlib

/-!
Verification of the asynchronous request/response correlation and
delivery-token engine specified for the paho.mqtt.rust example corpus,
together with the reply-handling logic of `examples/rpc_math_cli.rs`.

The repository's `src/` holds only example programs; the token registry,
inbound dispatcher, correlation matcher, delivery-token future, and message
queue are specified but not implemented there, so those components are
modelled from the spec (each such definition says so in its doc comment).
The definitions for the RPC example are translated from
`examples/rpc_math_cli.rs` directly.
-/

namespace MqttCore

/-- Modelled from the spec: the error taxonomy of section 7
(`OperationFailed`, `ConnectionLost`, `DuplicateCorrelation`,
`AlreadyResolved` is a status, `QueueClosed` is a receive result;
`resourceExhausted` is the id-space exhaustion error of `allocate`;
`notConnected` is the programmer-misuse error for operating while
disconnected). -/
inductive MqttError where
  | operationFailed (cause : String)
  | connectionLost (reason : String)
  | duplicateCorrelation (id : List Nat)
  | resourceExhausted
  | notConnected
  deriving DecidableEq, Repr

/-- Modelled from the spec: the terminal result slot of an Operation Token
(`empty | success payload | error`); `empty` is represented by absence from
the registry's results. -/
inductive TokenResult where
  | success (payload : String)
  | failure (err : MqttError)
  deriving DecidableEq, Repr

/-- Modelled from the spec: the operation kind of an Operation Token
(connect, publish, subscribe, unsubscribe, disconnect). -/
inductive OpKind where
  | connect
  | publish
  | subscribe
  | unsubscribe
  | disconnect
  deriving DecidableEq, Repr

/-- Modelled from the spec: the Token Registry, owning the set of in-flight
operation handles keyed by a locally assigned id. `nextId` is the monotonic
id source; `pending` holds the ids of non-terminal tokens; `results` is an
association list from id to terminal result (a token is terminal iff it has
an entry here). -/
structure Registry where
  nextId : Nat
  pending : List Nat
  results : List (Nat × TokenResult)
  deriving DecidableEq, Repr

/-- Modelled from the spec: ids are 64-bit, so the id space is `2 ^ 64`. -/
def idSpace : Nat := 2 ^ 64

/-- Association-list lookup (first matching key wins), used to represent the
registry's id-to-result map and the matcher's correlation map. -/
def alookup {α β : Type} [DecidableEq α] (a : α) : List (α × β) → Option β
  | [] => none
  | (k, v) :: rest => if a = k then some v else alookup a rest

/-- The freshly created registry: no tokens, ids start at 0. -/
def Registry.empty : Registry := ⟨0, [], []⟩

/-- The stored terminal result of a token, if any. -/
def Registry.resultOf (s : Registry) (id : Nat) : Option TokenResult :=
  alookup id s.results

/-- Modelled from the spec: `allocate(kind) -> TokenHandle` returns a new
non-terminal token with a fresh id; fails only on id-space exhaustion, in
which case it refuses allocation with a resource-exhaustion error rather
than reusing a live id. -/
def Registry.allocate (s : Registry) (_k : OpKind) : Except MqttError (Nat × Registry) :=
  if s.nextId < idSpace then
    .ok (s.nextId, { s with nextId := s.nextId + 1, pending := s.nextId :: s.pending })
  else
    .error .resourceExhausted

/-- Modelled from the spec: the status `resolve` reports to its caller:
effective resolution, the idempotent-retry signal `AlreadyResolved`, or an
unmatched id (logged and dropped by the dispatcher). -/
inductive ResolveStatus where
  | resolved
  | alreadyResolved
  | notFound
  deriving DecidableEq, Repr

/-- Modelled from the spec: `resolve(id, result)` transitions the token to
terminal exactly once; a second call for the same id is a no-op that
reports an `AlreadyResolved` condition rather than corrupting state;
an id never seen is reported `notFound` and dropped. -/
def Registry.resolve (s : Registry) (id : Nat) (r : TokenResult) :
    ResolveStatus × Registry :=
  if (alookup id s.results).isSome then
    (.alreadyResolved, s)
  else if id ∈ s.pending then
    (.resolved,
      { s with pending := s.pending.filter (fun x => x ≠ id),
               results := (id, r) :: s.results })
  else
    (.notFound, s)

/-- Modelled from the spec: `abandon_all(reason)` is called on connection
loss and transitions every still-pending token to a terminal failure
carrying `reason`, leaving no pending entries. -/
def Registry.abandon_all (s : Registry) (reason : String) : Registry :=
  { s with
      pending := [],
      results :=
        s.pending.map (fun id => (id, TokenResult.failure (.connectionLost reason)))
          ++ s.results }

/-! Association-list helper lemmas for the registry's results. -/

theorem alookup_map_const {l : List Nat} {id : Nat} (h : id ∈ l)
    (r : TokenResult) :
    alookup id (l.map (fun x => (x, r))) = some r := by
  induction l with
  | nil => cases h
  | cons a t ih =>
    by_cases hag : id = a
    · simp [alookup, hag]
    · have ht : id ∈ t := by
        cases List.mem_cons.mp h with
        | inl h' => exact absurd h' hag
        | inr h' => exact h'
      simp [alookup, hag, ih ht]

theorem alookup_append_left {l₁ l₂ : List (Nat × TokenResult)} {id : Nat}
    {r : TokenResult} (h : alookup id l₁ = some r) :
    alookup id (l₁ ++ l₂) = some r := by
  induction l₁ with
  | nil => simp [alookup] at h
  | cons a t ih =>
    by_cases hag : id = a.1
    · simpa [alookup, hag] using h
    · simp only [alookup, hag, if_false] at h
      simpa [alookup, hag] using ih h

/-- Claim C1: for a token that is pending and non-terminal, the first
`resolve(id, result)` call reports `resolved`, installs `result` as the
stored terminal result and removes the token from the pending set; any
subsequent `resolve` for the same id (with any result) reports
`AlreadyResolved` and leaves the whole registry state, in particular the
stored result, unchanged. -/
theorem resolve_effective_exactly_once (s : Registry) (id : Nat)
    (r r' : TokenResult) (hp : id ∈ s.pending)
    (hnt : alookup id s.results = none) :
    (s.resolve id r).1 = .resolved ∧
    ((s.resolve id r).2.resultOf id = some r ∧ id ∉ (s.resolve id r).2.pending) ∧
    (s.resolve id r).2.resolve id r' = (.alreadyResolved, (s.resolve id r).2) := by
  have hstep : s.resolve id r =
      (.resolved,
        { s with pending := s.pending.filter (fun x => x ≠ id),
                 results := (id, r) :: s.results }) := by
    unfold Registry.resolve
    simp [hnt, hp]
  refine ⟨by rw [hstep], ⟨?_, ?_⟩, ?_⟩
  · rw [hstep]
    simp [Registry.resultOf, alookup]
  · rw [hstep]
    simp
  · rw [hstep]
    unfold Registry.resolve
    simp [alookup]

/-- Witness for `C1` at a concrete registry state. -/
theorem resolve_effective_exactly_once_witness :
    (7 ∈ (Registry.mk 8 [7, 3] []).pending ∧
      alookup 7 (Registry.mk 8 [7, 3] []).results = none) ∧
    (((Registry.mk 8 [7, 3] []).resolve 7 (.success "ok")).1 = .resolved ∧
      (((Registry.mk 8 [7, 3] []).resolve 7 (.success "ok")).2.resultOf 7 =
          some (.success "ok") ∧
        7 ∉ ((Registry.mk 8 [7, 3] []).resolve 7 (.success "ok")).2.pending) ∧
      ((Registry.mk 8 [7, 3] []).resolve 7 (.success "ok")).2.resolve 7
          (.failure .notConnected) =
        (.alreadyResolved, ((Registry.mk 8 [7, 3] []).resolve 7 (.success "ok")).2)) :=
  ⟨⟨by decide, by decide⟩,
    resolve_effective_exactly_once (Registry.mk 8 [7, 3] []) 7 (.success "ok")
      (.failure .notConnected) (by decide) (by decide)⟩

/-- Claim C2: after `abandon_all(reason)`, every token that was pending in the
registry at that moment has the stored terminal failure
`ConnectionLost(reason)` (so its future yields that failure), and the
registry contains no pending entries. -/
theorem abandon_all_fails_all_pending (s : Registry) (reason : String) :
    (s.abandon_all reason).pending = [] ∧
    ∀ id, id ∈ s.pending →
      (s.abandon_all reason).resultOf id =
        some (.failure (.connectionLost reason)) := by
  refine ⟨rfl, fun id hid => ?_⟩
  unfold Registry.abandon_all Registry.resultOf
  exact alookup_append_left (alookup_map_const hid _)

/-- Witness for `C2` at a concrete registry state with two pending tokens. -/
theorem abandon_all_fails_all_pending_witness :
    ((Registry.mk 5 [4, 2] [(1, .success "a")]).abandon_all "network reset").pending
        = [] ∧
    ((Registry.mk 5 [4, 2] [(1, .success "a")]).abandon_all "network reset").resultOf 4
        = some (.failure (.connectionLost "network reset")) :=
  ⟨(abandon_all_fails_all_pending (Registry.mk 5 [4, 2] [(1, .success "a")])
      "network reset").1,
    (abandon_all_fails_all_pending (Registry.mk 5 [4, 2] [(1, .success "a")])
      "network reset").2 4 (by decide)⟩

/-- Modelled from the spec: a sequence of `allocate` requests executed in
order, collecting the ids actually returned; a refused allocation
(id-space exhaustion) returns no id and leaves the registry unchanged. -/
def allocRun (s : Registry) : List OpKind → List Nat × Registry
  | [] => ([], s)
  | k :: ks =>
    match s.allocate k with
    | .ok (id, s') =>
      let rest := allocRun s' ks
      (id :: rest.1, rest.2)
    | .error _ => allocRun s ks

theorem allocate_ok (s : Registry) (k : OpKind) (h : s.nextId < idSpace) :
    s.allocate k = .ok (s.nextId,
      { s with nextId := s.nextId + 1, pending := s.nextId :: s.pending }) := by
  unfold Registry.allocate
  simp [h]

theorem allocate_exhausted (s : Registry) (k : OpKind) (h : ¬s.nextId < idSpace) :
    s.allocate k = .error .resourceExhausted := by
  unfold Registry.allocate
  simp [h]

theorem allocRun_cons_ok (s : Registry) (k : OpKind) (ks : List OpKind)
    (h : s.nextId < idSpace) :
    allocRun s (k :: ks) =
      (s.nextId ::
          (allocRun
            { s with nextId := s.nextId + 1, pending := s.nextId :: s.pending } ks).1,
        (allocRun
          { s with nextId := s.nextId + 1, pending := s.nextId :: s.pending } ks).2) := by
  rw [allocRun, allocate_ok s k h]

theorem allocRun_cons_exhausted (s : Registry) (k : OpKind) (ks : List OpKind)
    (h : ¬s.nextId < idSpace) :
    allocRun s (k :: ks) = allocRun s ks := by
  rw [allocRun, allocate_exhausted s k h]

theorem allocRun_ids_lb (ks : List OpKind) (s : Registry) :
    ∀ id ∈ (allocRun s ks).1, s.nextId ≤ id := by
  induction ks generalizing s with
  | nil =>
    intro id hid
    simp [allocRun] at hid
  | cons k ks ih =>
    intro id hid
    by_cases h : s.nextId < idSpace
    · rw [allocRun_cons_ok s k ks h] at hid
      rcases List.mem_cons.mp hid with h' | h'
      · omega
      · have := ih _ id h'
        simp at this
        omega
    · rw [allocRun_cons_exhausted s k ks h] at hid
      exact ih s id hid

theorem allocRun_ids_nodup (ks : List OpKind) (s : Registry) :
    (allocRun s ks).1.Nodup := by
  induction ks generalizing s with
  | nil => simp [allocRun]
  | cons k ks ih =>
    by_cases h : s.nextId < idSpace
    · rw [allocRun_cons_ok s k ks h]
      refine List.nodup_cons.mpr ⟨fun hmem => ?_, ih _⟩
      have := allocRun_ids_lb ks _ s.nextId hmem
      simp at this
    · rw [allocRun_cons_exhausted s k ks h]
      exact ih s

/-- Claim C5: over any sequence of allocation requests, the ids actually
returned are pairwise distinct; moreover (given the registry invariant
that pending ids are below `nextId`) no returned id is a live pending id,
and a single `allocate` fails exactly on id-space exhaustion, in which
case it reports the resource-exhaustion error instead of producing an id. -/
theorem allocate_ids_distinct (s : Registry) (ks : List OpKind) (k : OpKind)
    (hwf : ∀ id ∈ s.pending, id < s.nextId) :
    (allocRun s ks).1.Nodup ∧
    (∀ id ∈ (allocRun s ks).1, id ∉ s.pending) ∧
    (∀ e, s.allocate k = .error e ↔ e = .resourceExhausted ∧ idSpace ≤ s.nextId) := by
  refine ⟨allocRun_ids_nodup ks s, fun id hid hmem => ?_, fun e => ?_⟩
  · have h1 := allocRun_ids_lb ks s id hid
    have h2 := hwf id hmem
    omega
  · unfold Registry.allocate
    by_cases h : s.nextId < idSpace
    · constructor
      · intro he
        simp [h] at he
      · intro ⟨_, hge⟩
        omega
    · constructor
      · intro he
        simp [h] at he
        exact ⟨he.symm, by omega⟩
      · rintro ⟨he, _⟩
        simp [h, he]

/-- Witness for `C5`: three allocations from the fresh registry. -/
theorem allocate_ids_distinct_witness :
    (allocRun (Registry.mk 0 [] []) [.publish, .publish, .subscribe]).1.Nodup ∧
    (∀ id ∈ (allocRun (Registry.mk 0 [] []) [.publish, .publish, .subscribe]).1,
      id ∉ (Registry.mk 0 [] []).pending) ∧
    (∀ e, (Registry.mk 0 [] []).allocate .connect = .error e ↔
      e = .resourceExhausted ∧ idSpace ≤ (Registry.mk 0 [] []).nextId) :=
  allocate_ids_distinct (Registry.mk 0 [] []) [.publish, .publish, .subscribe]
    .connect (by simp)

/-! Further association-list lemmas, for the token state machine. -/

theorem alookup_cons_eqn {α β : Type} [DecidableEq α] (a k : α) (v : β)
    (l : List (α × β)) :
    alookup a ((k, v) :: l) = if a = k then some v else alookup a l := rfl

theorem alookup_eq_none_of_forall {β : Type} {l : List (Nat × β)} {a : Nat}
    (h : ∀ p ∈ l, a ≠ p.1) : alookup a l = none := by
  induction l with
  | nil => rfl
  | cons p t ih =>
    have hne : a ≠ p.1 := h p (by simp)
    have hc : alookup a (p :: t) = if a = p.1 then some p.2 else alookup a t := by
      cases p
      rfl
    rw [hc, if_neg hne]
    exact ih fun q hq => h q (by simp [hq])

theorem alookup_append_right {β : Type} {l₁ l₂ : List (Nat × β)} {a : Nat}
    (h : alookup a l₁ = none) : alookup a (l₁ ++ l₂) = alookup a l₂ := by
  induction l₁ with
  | nil => rfl
  | cons p t ih =>
    cases p with
    | mk k v =>
      by_cases hak : a = k
      · simp [alookup, hak] at h
      · simp only [List.cons_append, alookup, hak, if_false] at h ⊢
        exact ih h

theorem alookup_map_const_none {l : List Nat} {a : Nat} (h : a ∉ l)
    (r : TokenResult) :
    alookup a (l.map (fun x => (x, r))) = none := by
  induction l with
  | nil => rfl
  | cons b t ih =>
    have hab : a ≠ b := fun he => h (he ▸ List.mem_cons_self b t)
    simp only [List.map_cons, alookup, hab, if_false]
    exact ih fun ht => h (List.mem_cons_of_mem b ht)

/-! Equation lemmas for `resolve` in each of its three branches. -/

theorem resolve_already (s : Registry) (id : Nat) (r : TokenResult)
    (h : (alookup id s.results).isSome) :
    s.resolve id r = (.alreadyResolved, s) := by
  unfold Registry.resolve
  simp [h]

theorem resolve_pending_eqn (s : Registry) (id : Nat) (r : TokenResult)
    (h1 : alookup id s.results = none) (h2 : id ∈ s.pending) :
    s.resolve id r =
      (.resolved,
        { s with pending := s.pending.filter (fun x => x ≠ id),
                 results := (id, r) :: s.results }) := by
  unfold Registry.resolve
  simp [h1, h2]

theorem resolve_not_found (s : Registry) (id : Nat) (r : TokenResult)
    (h1 : alookup id s.results = none) (h2 : id ∉ s.pending) :
    s.resolve id r = (.notFound, s) := by
  unfold Registry.resolve
  simp [h1, h2]

/-- Modelled from the spec: the externally observable state of a
Delivery-Token Future (`Pending -> Succeeded | Failed`); all three access
modes (blocking wait, non-blocking poll, suspension-based await) read this
one terminal-state cell. -/
inductive TokenState where
  | pending
  | succeeded (payload : String)
  | failed (err : MqttError)
  deriving DecidableEq, Repr

/-- The token state corresponding to a stored terminal result. -/
def toState : TokenResult → TokenState
  | .success p => .succeeded p
  | .failure e => .failed e

/-- Modelled from the spec: the non-blocking poll of a token's future —
returns the current state without side effects (the registry is not an
argument of any update here; blocking wait and await observe the same
cell). -/
def Registry.poll (s : Registry) (id : Nat) : Option TokenState :=
  match alookup id s.results with
  | some r => some (toState r)
  | none => if id ∈ s.pending then some .pending else none

/-- Modelled from the spec: the operations the single inbound-event writer
may perform on the registry. -/
inductive RegOp where
  | alloc (k : OpKind)
  | res (id : Nat) (r : TokenResult)
  | abandon (reason : String)

/-- One registry mutation step (a refused allocation leaves the registry
unchanged). -/
def Registry.applyOp (s : Registry) : RegOp → Registry
  | .alloc k =>
    match s.allocate k with
    | .ok (_, s') => s'
    | .error _ => s
  | .res id r => (s.resolve id r).2
  | .abandon reason => s.abandon_all reason

/-- A serial sequence of registry mutations. -/
def Registry.applyOps (s : Registry) (ops : List RegOp) : Registry :=
  ops.foldl Registry.applyOp s

/-- The registry invariant: pending ids and result keys are below the id
source, and a pending (non-terminal) token has no stored result. -/
def Registry.WF (s : Registry) : Prop :=
  (∀ id ∈ s.pending, id < s.nextId) ∧
  (∀ p ∈ s.results, p.1 < s.nextId) ∧
  (∀ id ∈ s.pending, alookup id s.results = none)

theorem WF_mk_iff (n : Nat) (p : List Nat) (res : List (Nat × TokenResult)) :
    (Registry.mk n p res).WF ↔
      ((∀ id ∈ p, id < n) ∧ (∀ q ∈ res, q.1 < n) ∧
        (∀ id ∈ p, alookup id res = none)) :=
  Iff.rfl

theorem applyOp_alloc_ok (s : Registry) (k : OpKind) (h : s.nextId < idSpace) :
    s.applyOp (.alloc k) =
      { s with nextId := s.nextId + 1, pending := s.nextId :: s.pending } := by
  show (match s.allocate k with
    | Except.ok (_, s') => s'
    | Except.error _ => s) =
    { s with nextId := s.nextId + 1, pending := s.nextId :: s.pending }
  rw [allocate_ok s k h]

theorem applyOp_alloc_exhausted (s : Registry) (k : OpKind)
    (h : ¬s.nextId < idSpace) :
    s.applyOp (.alloc k) = s := by
  show (match s.allocate k with
    | Except.ok (_, s') => s'
    | Except.error _ => s) = s
  rw [allocate_exhausted s k h]

theorem applyOp_res (s : Registry) (id : Nat) (r : TokenResult) :
    s.applyOp (.res id r) = (s.resolve id r).2 := rfl

theorem applyOp_abandon (s : Registry) (reason : String) :
    s.applyOp (.abandon reason) = s.abandon_all reason := rfl

theorem WF_applyOp (s : Registry) (op : RegOp) (hwf : s.WF) :
    (s.applyOp op).WF := by
  obtain ⟨h1, h2, h3⟩ := hwf
  cases op with
  | alloc k =>
    by_cases hlt : s.nextId < idSpace
    · rw [applyOp_alloc_ok s k hlt, WF_mk_iff]
      refine ⟨?_, ?_, ?_⟩
      · intro i hi
        rcases List.mem_cons.mp hi with h' | h'
        · omega
        · have := h1 i h'
          omega
      · intro p hp
        have := h2 p hp
        omega
      · intro i hi
        rcases List.mem_cons.mp hi with h' | h'
        · subst h'
          exact alookup_eq_none_of_forall fun p hp => by
            have := h2 p hp
            omega
        · exact h3 i h'
    · rw [applyOp_alloc_exhausted s k hlt]
      exact ⟨h1, h2, h3⟩
  | res id r =>
    rw [applyOp_res]
    cases hq : alookup id s.results with
    | some v =>
      rw [resolve_already s id r (by simp [hq])]
      exact ⟨h1, h2, h3⟩
    | none =>
      by_cases hmem : id ∈ s.pending
      · rw [resolve_pending_eqn s id r hq hmem]
        refine ⟨?_, ?_, ?_⟩
        · intro i hi
          exact h1 i (List.mem_of_mem_filter hi)
        · intro p hp
          rcases List.mem_cons.mp hp with h' | h'
          · rw [h']
            exact h1 id hmem
          · exact h2 p h'
        · intro i hi
          have hif : i ∈ s.pending ∧ i ≠ id := by
            simpa using List.mem_filter.mp hi
          rw [alookup_cons_eqn, if_neg hif.2]
          exact h3 i hif.1
      · rw [resolve_not_found s id r hq hmem]
        exact ⟨h1, h2, h3⟩
  | abandon reason =>
    rw [applyOp_abandon]
    refine ⟨?_, ?_, ?_⟩
    · intro i hi
      simp [Registry.abandon_all] at hi
    · intro p hp
      simp only [Registry.abandon_all] at hp
      rcases List.mem_append.mp hp with h' | h'
      · obtain ⟨i, hi, he⟩ := List.mem_map.mp h'
        subst he
        simpa using h1 i hi
      · exact h2 p h'
    · intro i hi
      simp [Registry.abandon_all] at hi

theorem results_terminal_preserved (s : Registry) (op : RegOp) (id : Nat)
    (hwf : s.WF) {r : TokenResult} (h : alookup id s.results = some r) :
    alookup id (s.applyOp op).results = some r := by
  obtain ⟨h1, h2, h3⟩ := hwf
  cases op with
  | alloc k =>
    by_cases hlt : s.nextId < idSpace
    · rw [applyOp_alloc_ok s k hlt]
      exact h
    · rw [applyOp_alloc_exhausted s k hlt]
      exact h
  | res id' r' =>
    rw [applyOp_res]
    cases hq : alookup id' s.results with
    | some v =>
      rw [resolve_already s id' r' (by simp [hq])]
      exact h
    | none =>
      by_cases hmem : id' ∈ s.pending
      · rw [resolve_pending_eqn s id' r' hq hmem]
        have hne : id ≠ id' := by
          intro he
          rw [he, hq] at h
          cases h
        rw [alookup_cons_eqn, if_neg hne]
        exact h
      · rw [resolve_not_found s id' r' hq hmem]
        exact h
  | abandon reason =>
    rw [applyOp_abandon]
    have hnp : id ∉ s.pending := fun hmem => by
      rw [h3 id hmem] at h
      cases h
    have hres : (s.abandon_all reason).results =
        s.pending.map (fun i => (i, TokenResult.failure (.connectionLost reason)))
          ++ s.results := rfl
    rw [hres, alookup_append_right (alookup_map_const_none hnp _)]
    exact h

theorem applyOps_terminal_preserved (ops : List RegOp) (s : Registry) (id : Nat)
    (hwf : s.WF) {r : TokenResult} (h : alookup id s.results = some r) :
    alookup id (s.applyOps ops).results = some r := by
  induction ops generalizing s with
  | nil => exact h
  | cons op ops ih =>
    exact ih (s.applyOp op) (WF_applyOp s op hwf)
      (results_terminal_preserved s op id hwf h)

/-- Claim C3: a Delivery-Token Future starts in state `Pending` (a freshly
allocated token polls as `Pending`) and transitions at most once, to one of
`Succeeded` or `Failed` (the only terminal constructors of `TokenState`):
once a well-formed registry shows a terminal state for a token, no sequence
of further registry operations changes it, so every access mode — all of
which read this one state cell without side effects — observes the same
single terminal transition. -/
theorem token_single_terminal_transition (s : Registry) (k : OpKind) (id : Nat)
    (st : TokenState) (ops : List RegOp) (hwf : s.WF) :
    (∀ id' s', s.allocate k = .ok (id', s') → s'.poll id' = some .pending) ∧
    (s.poll id = some st → st ≠ .pending →
      (s.applyOps ops).poll id = some st) := by
  refine ⟨?_, ?_⟩
  · intro id' s' hal
    by_cases hlt : s.nextId < idSpace
    · rw [allocate_ok s k hlt] at hal
      injection hal with hpair
      injection hpair with h5 h6
      subst h5
      subst h6
      have hnone : alookup s.nextId s.results = none :=
        alookup_eq_none_of_forall fun p hp => by
          have := hwf.2.1 p hp
          omega
      simp [Registry.poll, hnone]
    · rw [allocate_exhausted s k hlt] at hal
      cases hal
  · intro hpoll hterm
    unfold Registry.poll at hpoll
    cases hq : alookup id s.results with
    | none =>
      rw [hq] at hpoll
      by_cases hmem : id ∈ s.pending
      · simp [hmem] at hpoll
        exact absurd hpoll.symm hterm
      · simp [hmem] at hpoll
    | some v =>
      rw [hq] at hpoll
      have hpres := applyOps_terminal_preserved ops s id hwf hq
      unfold Registry.poll
      rw [hpres]
      exact hpoll

/-- Witness for `C3` at a concrete registry: a terminal `Succeeded` result
survives a resolve of another token, a sweep and an allocation. -/
theorem token_single_terminal_transition_witness :
    ((Registry.mk 2 [1] [(0, TokenResult.success "ok")]).applyOps
        [.res 1 (.failure .notConnected), .abandon "gone", .alloc .publish]).poll 0 =
      some (.succeeded "ok") :=
  (token_single_terminal_transition (Registry.mk 2 [1] [(0, .success "ok")])
      .publish 0 (.succeeded "ok")
      [.res 1 (.failure .notConnected), .abandon "gone", .alloc .publish]
      ⟨by decide, by decide, by decide⟩).2 (by decide) (by decide)

/-- An application message: a topic, a payload string, and the optional
CorrelationData property (an opaque byte sequence, modelled as a list of
byte values). -/
structure Message where
  topic : String
  payload : String
  corrData : Option (List Nat)
  deriving DecidableEq, Repr

/-- Modelled from the spec: the Correlation Matcher — `waiting` holds the
currently registered one-shot correlation ids, `completed` records each
completed `ReplyFuture` together with the message that fulfilled it. -/
structure Matcher where
  waiting : List (List Nat)
  completed : List (List Nat × Message)
  deriving DecidableEq, Repr

/-- Modelled from the spec: `expect(correlation_id) -> ReplyFuture`
registers a one-shot waiter; fails with a `DuplicateCorrelation` condition
if the same identifier is already registered. -/
def Matcher.expect (m : Matcher) (cid : List Nat) : Except MqttError Matcher :=
  if cid ∈ m.waiting then .error (.duplicateCorrelation cid)
  else .ok { m with waiting := cid :: m.waiting }

/-- Modelled from the spec: `on_message(msg)` — if the message's
correlation identifier matches a registered waiter, completes that waiter
with the message and removes the registration (one-shot); returns whether
it matched. -/
def Matcher.on_message (m : Matcher) (msg : Message) : Bool × Matcher :=
  match msg.corrData with
  | some cid =>
    if cid ∈ m.waiting then
      (true, { waiting := m.waiting.filter (fun c => c ≠ cid),
               completed := (cid, msg) :: m.completed })
    else (false, m)
  | none => (false, m)

/-- Claim C4: with a waiter registered for `cid`, `on_message` on a message
whose correlation id matches no registered waiter reports no match and
leaves the matcher — in particular the registration for `cid` — unchanged;
`on_message` on a message carrying `cid` reports a match, completes that
waiter with the message, removes the registration, and `expect cid`
afterwards succeeds again. -/
theorem on_message_one_shot (m : Matcher) (cid : List Nat)
    (msg msg' : Message) (hreg : cid ∈ m.waiting)
    (hmiss : ∀ c, msg'.corrData = some c → c ∉ m.waiting)
    (hhit : msg.corrData = some cid) :
    m.on_message msg' = (false, m) ∧
    (m.on_message msg).1 = true ∧
    (cid, msg) ∈ (m.on_message msg).2.completed ∧
    cid ∉ (m.on_message msg).2.waiting ∧
    (∃ m', (m.on_message msg).2.expect cid = .ok m') := by
  have hstep : m.on_message msg =
      (true, { waiting := m.waiting.filter (fun c => c ≠ cid),
               completed := (cid, msg) :: m.completed }) := by
    unfold Matcher.on_message
    rw [hhit]
    simp [hreg]
  have hnw : cid ∉ m.waiting.filter (fun c => c ≠ cid) := by
    intro hmem
    have := (List.mem_filter.mp hmem).2
    simp at this
  refine ⟨?_, ?_, ?_, ?_, ?_⟩
  · unfold Matcher.on_message
    cases hc : msg'.corrData with
    | none => rfl
    | some c => simp [hmiss c hc]
  · rw [hstep]
  · rw [hstep]
    exact List.mem_cons_self _ _
  · rw [hstep]
    exact hnw
  · rw [hstep]
    exact ⟨_, by unfold Matcher.expect; rw [if_neg hnw]⟩

/-- Witness for `C4` at a concrete matcher with one registration. -/
theorem on_message_one_shot_witness :
    (Matcher.mk [[49]] []).on_message (Message.mk "t" "p" (some [50])) =
        (false, Matcher.mk [[49]] []) ∧
    ((Matcher.mk [[49]] []).on_message (Message.mk "t" "q" (some [49]))).1 = true ∧
    ([49], Message.mk "t" "q" (some [49])) ∈
        ((Matcher.mk [[49]] []).on_message (Message.mk "t" "q" (some [49]))).2.completed ∧
    [49] ∉ ((Matcher.mk [[49]] []).on_message
        (Message.mk "t" "q" (some [49]))).2.waiting ∧
    (∃ m', ((Matcher.mk [[49]] []).on_message
        (Message.mk "t" "q" (some [49]))).2.expect [49] = .ok m') :=
  on_message_one_shot (Matcher.mk [[49]] []) [49]
    (Message.mk "t" "q" (some [49])) (Message.mk "t" "p" (some [50]))
    (by decide) (by decide) (by decide)

/-- Modelled from the spec: the Inbound Message Queue — a FIFO buffer of
unclaimed inbound messages plus the closed flag the dispatcher sets when it
flushes the queue on disconnect. -/
structure MsgQueue where
  buffer : List Message
  closed : Bool
  deriving DecidableEq, Repr

/-- Modelled from the spec: the consumer-side receive result — a message,
the `QueueClosed` end-of-stream marker, or the would-block marker standing
for the consumer's suspension while the open queue is empty. -/
inductive RecvResult where
  | msg (m : Message)
  | endOfStream
  | wouldBlock
  deriving DecidableEq, Repr

/-- Modelled from the spec: the producer side appends to the FIFO buffer;
after the queue is closed no further message is accepted. -/
def MsgQueue.enqueue (q : MsgQueue) (m : Message) : MsgQueue :=
  if q.closed then q else { q with buffer := q.buffer ++ [m] }

/-- Modelled from the spec: the consumer-side receive — the oldest buffered
message if any; on an empty queue, end-of-stream once closed, otherwise the
consumer would block. -/
def MsgQueue.receive (q : MsgQueue) : RecvResult × MsgQueue :=
  match q.buffer with
  | m :: rest => (.msg m, { q with buffer := rest })
  | [] => if q.closed then (.endOfStream, q) else (.wouldBlock, q)

/-- Modelled from the spec: the dispatcher closes the queue on disconnect. -/
def MsgQueue.close (q : MsgQueue) : MsgQueue := { q with closed := true }

/-- A sequence of enqueues executed in order. -/
def MsgQueue.enqueueAll (q : MsgQueue) (ms : List Message) : MsgQueue :=
  ms.foldl MsgQueue.enqueue q

/-- Performs `n` consecutive receives, collecting the results in order. -/
def MsgQueue.receiveN : Nat → MsgQueue → List RecvResult × MsgQueue
  | 0, q => ([], q)
  | n + 1, q =>
    let p := q.receive
    let rest := MsgQueue.receiveN n p.2
    (p.1 :: rest.1, rest.2)

theorem enqueueAll_open (ms : List Message) (q : MsgQueue)
    (hopen : q.closed = false) :
    q.enqueueAll ms = ⟨q.buffer ++ ms, false⟩ := by
  induction ms generalizing q with
  | nil =>
    cases q with
    | mk b c =>
      simp only [MsgQueue.enqueueAll, List.foldl_nil]
      simp at hopen
      simp [hopen]
  | cons m ms ih =>
    have hstep : q.enqueue m = ⟨q.buffer ++ [m], false⟩ := by
      unfold MsgQueue.enqueue
      rw [hopen]
      cases q
      simp_all
    have : q.enqueueAll (m :: ms) = (q.enqueue m).enqueueAll ms := rfl
    rw [this, hstep, ih ⟨q.buffer ++ [m], false⟩ rfl]
    simp

theorem receiveN_of_buffer (l : List Message) (q : MsgQueue)
    (h : q.buffer = l) :
    (MsgQueue.receiveN l.length q).1 = l.map RecvResult.msg ∧
    (MsgQueue.receiveN l.length q).2 = ⟨[], q.closed⟩ := by
  induction l generalizing q with
  | nil =>
    cases q with
    | mk b c =>
      simp only at h
      subst h
      exact ⟨rfl, rfl⟩
  | cons m rest ih =>
    have hstep : q.receive = (.msg m, { q with buffer := rest }) := by
      unfold MsgQueue.receive
      rw [h]
    have hrec : MsgQueue.receiveN (m :: rest).length q =
        ((q.receive).1 :: (MsgQueue.receiveN rest.length (q.receive).2).1,
          (MsgQueue.receiveN rest.length (q.receive).2).2) := rfl
    obtain ⟨ih1, ih2⟩ := ih { q with buffer := rest } rfl
    rw [hrec, hstep]
    exact ⟨by rw [ih1]; rfl, by rw [ih2]⟩

theorem receive_closed_drained (qc : MsgQueue) (hc : qc.closed = true)
    (hd : qc.buffer = []) : qc.receive = (.endOfStream, qc) := by
  unfold MsgQueue.receive
  rw [hd, hc]
  simp

/-- Claim C6: messages are dequeued in the same relative order they were
enqueued — enqueueing `ms` onto an open queue and receiving until empty
yields the prior buffer followed by `ms`, in order — and once the queue is
closed and drained every subsequent receive returns the end-of-stream
marker (and leaves the queue unchanged) rather than blocking. -/
theorem queue_fifo_and_closed (q : MsgQueue) (ms : List Message)
    (hopen : q.closed = false) (qc : MsgQueue) (n : Nat)
    (hc : qc.closed = true) (hd : qc.buffer = []) :
    (MsgQueue.receiveN (q.buffer ++ ms).length (q.enqueueAll ms)).1 =
      (q.buffer ++ ms).map RecvResult.msg ∧
    MsgQueue.receiveN n qc = (List.replicate n .endOfStream, qc) := by
  constructor
  · rw [enqueueAll_open ms q hopen]
    exact (receiveN_of_buffer (q.buffer ++ ms) ⟨q.buffer ++ ms, false⟩ rfl).1
  · induction n with
    | zero => rfl
    | succ n ih =>
      have hrec : MsgQueue.receiveN (n + 1) qc =
          ((qc.receive).1 :: (MsgQueue.receiveN n (qc.receive).2).1,
            (MsgQueue.receiveN n (qc.receive).2).2) := rfl
      rw [hrec, receive_closed_drained qc hc hd]
      rw [ih]
      rfl

/-- Witness for `C6`: two messages enqueued on the empty open queue come
back in order; a closed drained queue answers end-of-stream thrice. -/
theorem queue_fifo_and_closed_witness :
    (MsgQueue.receiveN
        ((MsgQueue.mk [] false).buffer ++
          [Message.mk "a" "1" none, Message.mk "b" "2" none]).length
        ((MsgQueue.mk [] false).enqueueAll
          [Message.mk "a" "1" none, Message.mk "b" "2" none])).1 =
      ((MsgQueue.mk [] false).buffer ++
        [Message.mk "a" "1" none, Message.mk "b" "2" none]).map RecvResult.msg ∧
    MsgQueue.receiveN 3 (MsgQueue.mk [] true) =
      (List.replicate 3 .endOfStream, MsgQueue.mk [] true) :=
  queue_fifo_and_closed (MsgQueue.mk [] false)
    [Message.mk "a" "1" none, Message.mk "b" "2" none] rfl
    (MsgQueue.mk [] true) 3 rfl rfl

/-- Modelled from the spec: the Connection Lifecycle State
(`Disconnected, Connecting, Connected, Disconnecting`), owned by the
client. -/
inductive ConnState where
  | disconnected
  | connecting
  | connected
  | disconnecting
  deriving DecidableEq, Repr

/-- The outcome of submitting an operation: the allocated token id, the
registry afterwards, and the error reported synchronously at the call, if
any. -/
structure SubmitResult where
  tokenId : Nat
  registry : Registry
  syncError : Option MqttError
  deriving DecidableEq, Repr

/-- Modelled from the spec: `submit(operation)` — a token created while the
lifecycle state is not `Connected` immediately fails fast (it is allocated
and at once transitioned to a terminal failure, and the misuse error is
reported synchronously at the call) unless the operation itself is
connect; otherwise the token is returned pending. -/
def submit (st : ConnState) (s : Registry) (k : OpKind) :
    Except MqttError SubmitResult :=
  match s.allocate k with
  | .error e => .error e
  | .ok (id, s') =>
    if st = .connected ∨ k = .connect then
      .ok ⟨id, s', none⟩
    else
      .ok ⟨id, (s'.resolve id (.failure .notConnected)).2, some .notConnected⟩

theorem submit_not_connected_eqn (st : ConnState) (s : Registry) (k : OpKind)
    (hst : st ≠ .connected) (hk : k ≠ .connect) (hsp : s.nextId < idSpace) :
    submit st s k = .ok ⟨s.nextId,
      ((Registry.mk (s.nextId + 1) (s.nextId :: s.pending) s.results).resolve
          s.nextId (.failure .notConnected)).2, some .notConnected⟩ := by
  show ((match s.allocate k with
    | Except.error e => Except.error e
    | Except.ok (id, s') =>
      if st = ConnState.connected ∨ k = OpKind.connect then
        Except.ok (SubmitResult.mk id s' none)
      else
        Except.ok (SubmitResult.mk id
          (s'.resolve id (TokenResult.failure MqttError.notConnected)).2
          (some MqttError.notConnected))) : Except MqttError SubmitResult) = _
  rw [allocate_ok s k hsp]
  simp only [if_neg (not_or.mpr ⟨hst, hk⟩)]

/-- Claim C7: every token created while the connection lifecycle state is not
`Connected` (for an operation kind other than connect) fails fast: the
submission reports the misuse error synchronously and the token is already
in the terminal `Failed` state. -/
theorem tokens_fail_fast_when_not_connected (st : ConnState) (s : Registry)
    (k : OpKind) (hst : st ≠ .connected) (hk : k ≠ .connect)
    (hsp : s.nextId < idSpace)
    (hfresh : alookup s.nextId s.results = none) :
    ∃ res, submit st s k = .ok res ∧
      res.syncError = some MqttError.notConnected ∧
      res.registry.poll res.tokenId = some (.failed .notConnected) := by
  refine ⟨_, submit_not_connected_eqn st s k hst hk hsp, rfl, ?_⟩
  have hres := resolve_pending_eqn
    (Registry.mk (s.nextId + 1) (s.nextId :: s.pending) s.results)
    s.nextId (.failure .notConnected) hfresh (List.mem_cons_self _ _)
  dsimp only
  rw [hres]
  simp [Registry.poll, alookup, toState]

/-- Witness for `C7`: a publish submitted while disconnected. -/
theorem tokens_fail_fast_when_not_connected_witness :
    ∃ res, submit .disconnected Registry.empty .publish = .ok res ∧
      res.syncError = some MqttError.notConnected ∧
      res.registry.poll res.tokenId = some (.failed .notConnected) :=
  tokens_fail_fast_when_not_connected .disconnected Registry.empty .publish
    (by decide) (by decide) (by norm_num [Registry.empty, idSpace]) rfl

/-- Modelled from the spec: the client-side wait bookkeeping — the wake
callbacks currently attached, as pairs of a waiter id and the token id the
waiter is waiting on. -/
structure Waiters where
  attached : List (Nat × Nat)
  deriving DecidableEq, Repr

/-- Modelled from the spec: what a waiter observes when its wait ends —
the token's terminal result, or the local timeout marker. -/
inductive WaitOutcome where
  | completed (r : TokenResult)
  | timedOut
  deriving DecidableEq, Repr

/-- Modelled from the spec: a wait with a timeout on a token's future. If
the token is already terminal its result is returned; otherwise the wait
times out, which only detaches this waiter's wake callback — the registry
is returned untouched, and the token stays pending until actually resolved
or swept by `abandon_all`. -/
def waitTimeout (s : Registry) (w : Waiters) (wid tid : Nat) :
    WaitOutcome × Registry × Waiters :=
  match alookup tid s.results with
  | some r => (.completed r, s, ⟨w.attached.filter (fun p => p.1 ≠ wid)⟩)
  | none => (.timedOut, s, ⟨w.attached.filter (fun p => p.1 ≠ wid)⟩)

/-- Claim C8: when a wait on a still-pending token times out (or the await is
cancelled), only the local wait is detached: the outcome is the timeout
marker and never an operation failure, the registry is returned exactly
unchanged — the token is still pending and its result slot still empty —
and no wake callback of this waiter remains attached. -/
theorem wait_timeout_detaches_only_local (s : Registry) (w : Waiters)
    (wid tid : Nat) (hp : tid ∈ s.pending)
    (hnt : alookup tid s.results = none) :
    (waitTimeout s w wid tid).1 = .timedOut ∧
    (waitTimeout s w wid tid).2.1 = s ∧
    tid ∈ (waitTimeout s w wid tid).2.1.pending ∧
    (waitTimeout s w wid tid).2.1.resultOf tid = none ∧
    (∀ e, (waitTimeout s w wid tid).1 ≠ .completed (.failure e)) ∧
    (∀ p ∈ (waitTimeout s w wid tid).2.2.attached, p.1 ≠ wid) := by
  have hstep : waitTimeout s w wid tid =
      (.timedOut, s, ⟨w.attached.filter (fun p => p.1 ≠ wid)⟩) := by
    unfold waitTimeout
    rw [hnt]
  rw [hstep]
  refine ⟨rfl, rfl, hp, hnt, fun e => by simp, fun p hmem => ?_⟩
  simpa using (List.mem_filter.mp hmem).2

/-- Witness for `C8`: a timed-out wait on pending token 0 leaves the
registry untouched and detaches only waiter 5. -/
theorem wait_timeout_detaches_only_local_witness :
    (waitTimeout (Registry.mk 1 [0] []) (Waiters.mk [(5, 0), (6, 0)]) 5 0).1 =
        .timedOut ∧
    (waitTimeout (Registry.mk 1 [0] []) (Waiters.mk [(5, 0), (6, 0)]) 5 0).2.1 =
        Registry.mk 1 [0] [] ∧
    0 ∈ (waitTimeout (Registry.mk 1 [0] [])
        (Waiters.mk [(5, 0), (6, 0)]) 5 0).2.1.pending ∧
    (waitTimeout (Registry.mk 1 [0] [])
        (Waiters.mk [(5, 0), (6, 0)]) 5 0).2.1.resultOf 0 = none ∧
    (∀ e, (waitTimeout (Registry.mk 1 [0] [])
        (Waiters.mk [(5, 0), (6, 0)]) 5 0).1 ≠ .completed (.failure e)) ∧
    (∀ p ∈ (waitTimeout (Registry.mk 1 [0] [])
        (Waiters.mk [(5, 0), (6, 0)]) 5 0).2.2.attached, p.1 ≠ 5) :=
  wait_timeout_detaches_only_local (Registry.mk 1 [0] [])
    (Waiters.mk [(5, 0), (6, 0)]) 5 0 (by decide) (by decide)

end MqttCore

namespace RpcMathCli

open MqttCore (Message)

/-- Rust's `Result::ok`, as used by `filter_map(Result::ok)`: converts a
`Result` (modelled as `Except`) to an `Option`, discarding the error. -/
def resultOk {ε α : Type} : Except ε α → Option α
  | .ok a => some a
  | .error _ => none

/-- From `examples/rpc_math_cli.rs` lines 122-126: the request arguments —
`args[1..].iter().map(|s| s.parse::<f64>()).filter_map(Result::ok)
.collect()`. `args` is the command line after the program name, so
`args[0]` is the operation name. The numeric parse is a parameter (the
`f64` values themselves stay opaque). -/
def math_args {ε α : Type} (parse : String → Except ε α)
    (args : List String) : List α :=
  ((args.drop 1).map parse).filterMap resultOk

/-- The payload contents as the claim words them: exactly the arguments
after the operation name that parse successfully, each replaced by its
parsed value, in their original relative order; arguments that fail to
parse are omitted. -/
def keptArgs {ε α : Type} (parse : String → Except ε α) :
    List String → List α
  | [] => []
  | s :: rest =>
    match parse s with
    | .ok v => v :: keptArgs parse rest
    | .error _ => keptArgs parse rest

theorem mapFilterMap_eq_keptArgs {ε α : Type} (parse : String → Except ε α)
    (l : List String) :
    (l.map parse).filterMap resultOk = keptArgs parse l := by
  induction l with
  | nil => rfl
  | cons s rest ih =>
    unfold keptArgs
    cases hps : parse s with
    | ok v => simp [List.filterMap_cons, resultOk, hps, ih]
    | error e => simp [List.filterMap_cons, resultOk, hps, ih]

/-- Claim C9: the request payload array consists of exactly those command-line
arguments after the operation name that parse as `f64`, in their original
relative order; an argument that fails to parse is silently omitted rather
than causing an error or abort (the pipeline is total and drops parse
failures). -/
theorem math_args_keeps_parsed_in_order {ε α : Type}
    (parse : String → Except ε α) (args : List String) :
    math_args parse args = keptArgs parse (args.drop 1) :=
  mapFilterMap_eq_keptArgs parse (args.drop 1)

/-- From `examples/rpc_math_cli.rs` line 106: the request's correlation id
`b"1"`, the single byte 0x31. -/
def corr_id : List Nat := [49]

/-- What the reply-handling branch outputs: the parsed numeric result on
stdout, the "Unknown response" diagnostic, or the receive-error
diagnostic. -/
inductive ReplyOutput (α : Type) where
  | result (v : α)
  | unknownResponse (cid : List Nat)
  | recvError
  deriving DecidableEq, Repr

/-- From `examples/rpc_math_cli.rs` lines 149-165: the reply handling.
The CorrelationData property is read with `unwrap()` (modelled as `none` —
a panic — when the property is missing); if it equals `corr_id` the
payload is parsed with `unwrap()` (again `none` on a parse failure) and
the number printed; otherwise the "Unknown response" diagnostic is
printed and no result is produced. `rx.recv()` yielding no message prints
the receive-error diagnostic. -/
def handle_reply {ε α : Type} (parse : String → Except ε α)
    (reply : Option Message) : Option (ReplyOutput α) :=
  match reply with
  | none => some .recvError
  | some msg =>
    match msg.corrData with
    | none => none
    | some reply_corr_id =>
      if reply_corr_id = corr_id then
        match parse msg.payload with
        | .ok ret => some (.result ret)
        | .error _ => none
      else
        some (.unknownResponse reply_corr_id)

/-- Claim C10: for a reply whose payload parses to `v`, the numeric result is
printed exactly when the reply's CorrelationData equals the request's
correlation id `b"1"`; on any mismatching CorrelationData the program
prints the "Unknown response" diagnostic and outputs no result. -/
theorem reply_gated_by_correlation {ε α : Type} (parse : String → Except ε α)
    (msg : Message) (v : α) (hparse : parse msg.payload = .ok v) :
    (handle_reply parse (some msg) = some (.result v) ↔
      msg.corrData = some corr_id) ∧
    (∀ c, msg.corrData = some c → c ≠ corr_id →
      handle_reply parse (some msg) = some (.unknownResponse c)) := by
  have hmatch : handle_reply parse (some msg) =
      (match msg.corrData with
        | none => (none : Option (ReplyOutput α))
        | some rcid =>
          if rcid = corr_id then
            match parse msg.payload with
            | .ok ret => some (.result ret)
            | .error _ => none
          else some (.unknownResponse rcid)) := rfl
  constructor
  · constructor
    · intro h
      rw [hmatch] at h
      cases hc : msg.corrData with
      | none =>
        rw [hc] at h
        simp at h
      | some c =>
        rw [hc] at h
        by_cases hcc : c = corr_id
        · rw [hcc]
        · simp [hcc] at h
    · intro h
      rw [hmatch, h]
      simp [hparse]
  · intro c hc hcc
    rw [hmatch, hc]
    simp [hcc]

/-- Witness for `C10` on a concrete reply carrying the matching
correlation data and a parsable payload. -/
theorem reply_gated_by_correlation_witness :
    (handle_reply
        (fun s => if s = "42" then Except.ok 42 else Except.error "bad")
        (some (Message.mk "r" "42" (some [49]))) =
          some (.result 42) ↔
      (Message.mk "r" "42" (some [49])).corrData = some corr_id) ∧
    (∀ c, (Message.mk "r" "42" (some [49])).corrData = some c →
      c ≠ corr_id →
      handle_reply
          (fun s => if s = "42" then Except.ok 42 else Except.error "bad")
          (some (Message.mk "r" "42" (some [49]))) =
        some (.unknownResponse c)) :=
  reply_gated_by_correlation
    (fun s => if s = "42" then Except.ok 42 else Except.error "bad")
    (Message.mk "r" "42" (some [49])) 42 (by simp)

end RpcMathCli
